import Mathlib

/-!
# Billing backend: the `POST /api/orders` transaction

A shallow embedding of the order-creation handler of `src/index.js`
(lines 114-157) together with the JavaScript built-ins it calls
(`Date.prototype.toISOString`, `String.prototype.slice`, the global hyphen `replace`,
`Number.prototype.toString`, `String.prototype.padStart`) and the three
PostgreSQL tables it writes.

Conventions of the embedding

* JavaScript strings that are computed on are lists of characters; they are
  wrapped into `String` where they are stored or sent.
* The handler is an `async` function with side effects on the storage, on the
  connection and on the HTTP response.  It is written in the monad `Async`,
  an exception monad over an explicit `World`; effects performed before an
  exception is thrown persist, exactly as in JavaScript.
* Which storage operations reject is not decided by the handler but by its
  environment, so it is a parameter (`Env.fails`), as are the instant returned
  by `new Date()` and the id that the `orders` insert returns.
-/

namespace Billing

/-! ## JavaScript string and number built-ins -/

/-- The built-in `String.prototype.padStart(targetLength, padString)`: a string that is
already long enough, or an empty filler, leaves the string unchanged; otherwise
the filler is repeated and truncated to the missing length and put in front. -/
def padStart (targetLength : Nat) (padString : List Char) (s : List Char) : List Char :=
  if targetLength ≤ s.length then s
  else if padString = [] then s
  else
    let fillLen := targetLength - s.length
    ((List.replicate fillLen padString).flatten.take fillLen) ++ s

/-- The built-in `Number.prototype.toString()` of a non-negative integer: its decimal
digits, most significant first, `"0"` for zero. -/
def numberToString (n : Nat) : List Char := Nat.toDigits 10 n

/-- The global replacement of the hyphen pattern by the empty string
(`today.replace` with the `g` flag on line 127): every hyphen is removed. -/
def removeHyphens (s : List Char) : List Char := s.filter (fun c => c != '-')

/-- The call `s.slice(0, 10)`: the first ten characters. -/
def slice10 (s : List Char) : List Char := s.take 10

/-- Numeric value of a string of decimal digits, read most significant digit
first (leading zeros allowed). Used to state what the digits of a bill number
denote. -/
def decimalValue (s : List Char) : Nat :=
  s.foldl (fun acc c => 10 * acc + (c.toNat - 48)) 0

/-! ## Dates (ECMAScript time values, milliseconds since the epoch, UTC) -/

/-- Milliseconds per day. -/
def msPerDay : Int := 86400000

/-- Milliseconds per minute. -/
def msPerMinute : Int := 60000

/-- ECMAScript `Day(t)`: the day number of a time value (floor division). -/
def Day (t : Int) : Int := t / msPerDay

/-- ECMAScript `TimeWithinDay(t)`. -/
def TimeWithinDay (t : Int) : Int := t % msPerDay

/-- A calendar date of the proleptic Gregorian calendar, `month` in 1..12. -/
structure CivilDate where
  year : Int
  month : Int
  day : Int
deriving DecidableEq

/-- The calendar date of a day number (days since 1970-01-01), i.e.
ECMAScript `YearFromTime`, `MonthFromTime + 1` and `DateFromTime`, computed in
closed form on 400-year eras that start on 1 March. -/
def civilFromDays (days : Int) : CivilDate :=
  let z := days + 719468
  let era := z / 146097
  let doe := z % 146097
  let yoe := (doe - doe / 1460 + doe / 36524 - doe / 146096) / 365
  let doy := doe - (365 * yoe + yoe / 4 - yoe / 100)
  let mp := (5 * doy + 2) / 153
  let d := doy - (153 * mp + 2) / 5 + 1
  let m := if mp < 10 then mp + 3 else mp - 9
  let y := yoe + era * 400
  { year := if m ≤ 2 then y + 1 else y, month := m, day := d }

/-- A non-negative number in decimal, zero-padded to `w` digits. -/
def pad (w : Nat) (n : Int) : List Char := padStart w ['0'] (numberToString n.toNat)

/-- The year field of the ISO format: four digits for years 0..9999, otherwise
a sign and six digits (the expanded-year form). -/
def yearString (y : Int) : List Char :=
  if 0 ≤ y ∧ y ≤ 9999 then pad 4 y
  else (if y < 0 then '-' else '+') :: pad 6 y.natAbs

/-- The text `YYYY-MM-DD` of a calendar date. -/
def formatDate (c : CivilDate) : List Char :=
  yearString c.year ++ '-' :: pad 2 c.month ++ '-' :: pad 2 c.day

/-- The built-in `Date.prototype.toISOString()` of the time value `t`: always in UTC,
`YYYY-MM-DDTHH:mm:ss.sssZ`. -/
def toISOString (t : Int) : List Char :=
  let c := civilFromDays (Day t)
  let r := TimeWithinDay t
  yearString c.year ++ '-' :: pad 2 c.month ++ '-' :: pad 2 c.day ++ 'T' ::
    pad 2 (r / 3600000) ++ ':' :: pad 2 (r / 60000 % 60) ++ ':' :: pad 2 (r / 1000 % 60) ++
    '.' :: pad 3 (r % 1000) ++ ['Z']

/-- ECMAScript `LocalTime(t)` for a time zone that is `offsetMinutes` ahead of
UTC at `t`. -/
def LocalTime (t : Int) (offsetMinutes : Int) : Int := t + offsetMinutes * msPerMinute

/-- The calendar date of the instant `t` on a clock that is `offsetMinutes`
ahead of UTC. -/
def localDate (t : Int) (offsetMinutes : Int) : CivilDate :=
  civilFromDays (Day (LocalTime t offsetMinutes))

/-- Line 119: `const today = new Date().toISOString().slice(0, 10)`, where `now`
is the time value of `new Date()`. -/
def today (now : Int) : String := String.mk (slice10 (toISOString now))

/-- Lines 127-129, the template literal for `billNo`: `today` without its
hyphens, a hyphen, and `sequence.toString().padStart(4, "0")`. -/
def billNo (today : String) (sequence : Nat) : String :=
  String.mk (removeHyphens today.data ++ '-' :: padStart 4 ['0'] (numberToString sequence))

/-- A date key of the form `YYYY-MM-DD`: four, two and two decimal digits
separated by hyphens. -/
def IsDateKey (s : String) : Prop :=
  ∃ y m d : List Char, y.length = 4 ∧ m.length = 2 ∧ d.length = 2 ∧
    (∀ c ∈ y ++ m ++ d, c.isDigit = true) ∧ s = String.mk (y ++ '-' :: m ++ '-' :: d)

/-! ## Request payload and storage -/

/-- A JSON value as it arrives in the request body and is handed on to the
storage driver. Numbers are carried as integers; the handler never computes
with them. -/
inductive JsVal where
  | undefined
  | null
  | bool (b : Bool)
  | num (n : Int)
  | str (s : String)
deriving DecidableEq

/-- JavaScript truthiness. -/
def JsVal.truthy : JsVal → Bool
  | .undefined => false
  | .null => false
  | .bool b => b
  | .num n => n != 0
  | .str s => s != ""

/-- The expression `v || null`. -/
def orNull (v : JsVal) : JsVal := if v.truthy then v else JsVal.null

/-- One element of `items`: an object, a property that is absent reads as
`undefined`. -/
structure Item where
  id : JsVal
  name : JsVal
  qty : JsVal
  price : JsVal
  total : JsVal
deriving DecidableEq

/-- The request body `req.body`. `items = none` stands for an `items` field
that is missing (or `null`): a value that `for ... of` cannot iterate. -/
structure Body where
  customer_name : JsVal
  phone : JsVal
  session : JsVal
  total : JsVal
  items : Option (List Item)
deriving DecidableEq

/-- A row of `orders`: the values the handler hands to the driver for the
columns it writes, and the `id` the storage assigns. -/
structure OrderRow where
  id : Nat
  bill_no : String
  customer_name : JsVal
  phone : JsVal
  session : JsVal
  total : JsVal
deriving DecidableEq

/-- A row of `order_items`: the values the handler hands to the driver for the
columns it writes. -/
structure OrderItemRow where
  order_id : Nat
  item_id : JsVal
  name_snapshot : JsVal
  qty : JsVal
  unit_price : JsVal
  line_total : JsVal
deriving DecidableEq

/-- The table `bill_counters`: rows `(date_key, counter)`. -/
abbrev Counters := List (String × Nat)

/-- The three tables the handler writes. -/
structure Db where
  bill_counters : Counters
  orders : List OrderRow
  order_items : List OrderItemRow
deriving DecidableEq

/-- The counter stored for `key`, if the table has a row for it. -/
def lookupCounter (key : String) : Counters → Option Nat
  | [] => none
  | (k, c) :: rest => if k = key then some c else lookupCounter key rest

/-- The stored counter of `key`, read as 0 when there is no row. -/
def storedCounter (key : String) (t : Counters) : Nat := (lookupCounter key t).getD 0

/-- The rows of the table whose key is `key`. -/
def rowsOf (key : String) (t : Counters) : Counters := t.filter (fun r => r.1 = key)

/-- The unique constraint on `date_key` that `ON CONFLICT (date_key)` relies
on: no two rows have the same key. -/
def UniqueKeys (t : Counters) : Prop := (t.map Prod.fst).Nodup

instance (t : Counters) : Decidable (UniqueKeys t) := by
  unfold UniqueKeys
  infer_instance

/-- Lines 120-124, the statement
`INSERT INTO bill_counters (date_key, counter) VALUES ($1, 1)
 ON CONFLICT (date_key) DO UPDATE SET counter = bill_counters.counter + 1
 RETURNING counter`:
the row in conflict gets its counter incremented, without a conflict the row
`(key, 1)` is inserted; the result is the new table and the returned counter. -/
def upsertCounter (key : String) : Counters → Counters × Nat
  | [] => ([(key, 1)], 1)
  | (k, c) :: rest =>
    if k = key then ((k, c + 1) :: rest, c + 1)
    else ((k, c) :: (upsertCounter key rest).1, (upsertCounter key rest).2)

/-- The table after `k` successive allocations for `key`. -/
def allocate (key : String) : Nat → Counters → Counters
  | 0, t => t
  | k + 1, t => allocate key k (upsertCounter key t).1

/-! ## The handler's effects -/

/-- The storage operations the handler awaits; each may reject. -/
inductive Op where
  | connect
  | begin
  | upsert
  | insertOrder
  | insertItem (k : Nat)
  | commit
  | rollback
deriving DecidableEq

/-- What the handler does not decide: the time value of `new Date()`, which
storage operations reject, and the id that `INSERT INTO orders ... RETURNING id`
returns. -/
structure Env where
  now : Int
  fails : Op → Bool
  orderId : Nat

/-- An HTTP response sent through `res`. -/
inductive Response where
  | created (bill_no : String) (order_id : Nat)
  | failure (status : Nat) (error : String)
deriving DecidableEq

/-- A thrown value: the rejection of a storage operation, or the `TypeError` of
iterating a value that is not iterable. -/
inductive Err where
  | storage (op : Op)
  | typeError
deriving DecidableEq

/-- Everything the handler acts on. `db` is the content of the tables as the
connection sees it; `saved` is the content at `BEGIN` while a transaction is
open; `released` counts the calls of `client.release()`; `responses` lists the
responses sent, oldest first. -/
structure World where
  db : Db
  saved : Option Db
  released : Nat
  responses : List Response
deriving DecidableEq

/-- A computation that may throw, with effects on the world that persist when
it throws. -/
def Async (α : Type) : Type := World → Except Err α × World

/-- Sequencing: an exception skips the continuation. -/
def Async.bind {α β : Type} (m : Async α) (f : α → Async β) : Async β :=
  fun w =>
    match m w with
    | (Except.ok a, w1) => f a w1
    | (Except.error e, w1) => (Except.error e, w1)

instance : Monad Async where
  pure a := fun w => (Except.ok a, w)
  bind := Async.bind

/-- The statement `throw e` (a rejected promise that is awaited). -/
def raise {α : Type} (e : Err) : Async α := fun w => (Except.error e, w)

/-- The block `try { body } catch (e) { handler }`. -/
def tryCatch {α : Type} (body : Async α) (handler : Err → Async α) : Async α :=
  fun w =>
    match body w with
    | (Except.ok a, w1) => (Except.ok a, w1)
    | (Except.error e, w1) => handler e w1

/-- The block `try { body } finally { fin }`: `fin` runs on every exit of `body`;
the outcome is that of `body` unless `fin` itself throws. -/
def tryFinally {α : Type} (body : Async α) (fin : Async Unit) : Async α :=
  fun w =>
    match body w with
    | (r, w1) =>
      match fin w1 with
      | (Except.ok _, w2) => (r, w2)
      | (Except.error e, w2) => (Except.error e, w2)

/-- An awaited storage operation: it rejects when the environment says so, and
a rejected operation has no effect; otherwise it has the effect `eff` and the
result `res` (computed on the world before the effect). -/
def storageOp {α : Type} (env : Env) (op : Op) (res : World → α) (eff : World → World) :
    Async α :=
  fun w => if env.fails op then (Except.error (Err.storage op), w) else (Except.ok (res w), eff w)

/-- Line 115: `await pool.connect()`. -/
def poolConnect (env : Env) : Async Unit :=
  storageOp env Op.connect (fun _ => ()) id

/-- Line 117: `await client.query("BEGIN")`; the content of the tables is saved. -/
def queryBegin (env : Env) : Async Unit :=
  storageOp env Op.begin (fun _ => ()) (fun w => { w with saved := some w.db })

/-- Line 125: `await client.query(upsert, [today])`, returning
`crows[0].counter`. -/
def queryUpsert (env : Env) (key : String) : Async Nat :=
  storageOp env Op.upsert (fun w => (upsertCounter key w.db.bill_counters).2)
    (fun w => { w with db := { w.db with
      bill_counters := (upsertCounter key w.db.bill_counters).1 } })

/-- The row written for the order (line 136), with the id the storage assigns. -/
def orderRow (id : Nat) (bill : String) (body : Body) : OrderRow :=
  { id := id, bill_no := bill, customer_name := orNull body.customer_name,
    phone := orNull body.phone, session := orNull body.session, total := body.total }

/-- Lines 132-138: the insert into `orders` with the parameters
`[billNo, customer_name || null, phone || null, session || null, total]`,
returning `orows[0].id`. -/
def queryInsertOrder (env : Env) (row : OrderRow) : Async Nat :=
  storageOp env Op.insertOrder (fun _ => row.id)
    (fun w => { w with db := { w.db with orders := w.db.orders ++ [row] } })

/-- The row written for the item `it` of the order `orderId` (line 144). -/
def itemRow (orderId : Nat) (it : Item) : OrderItemRow :=
  { order_id := orderId, item_id := orNull it.id, name_snapshot := it.name, qty := it.qty,
    unit_price := it.price, line_total := it.total }

/-- Lines 141-145: the insert of the `k`-th item (counted from 0). -/
def queryInsertItem (env : Env) (k : Nat) (orderId : Nat) (it : Item) : Async Unit :=
  storageOp env (Op.insertItem k) (fun _ => ())
    (fun w => { w with db := { w.db with
      order_items := w.db.order_items ++ [itemRow orderId it] } })

/-- Line 148: `await client.query("COMMIT")`; the transaction is closed and its
changes stay. -/
def queryCommit (env : Env) : Async Unit :=
  storageOp env Op.commit (fun _ => ()) (fun w => { w with saved := none })

/-- Line 151: `await client.query("ROLLBACK")`; the tables get the content saved
at `BEGIN` back (without an open transaction nothing changes). -/
def queryRollback (env : Env) : Async Unit :=
  storageOp env Op.rollback (fun _ => ())
    (fun w => { w with db := w.saved.getD w.db, saved := none })

/-- Line 155: `client.release()`. -/
def release : Async Unit :=
  fun w => (Except.ok (), { w with released := w.released + 1 })

/-- Sending a response: `res.json(...)` or `res.status(500).json(...)`. -/
def respond (r : Response) : Async Unit :=
  fun w => (Except.ok (), { w with responses := w.responses ++ [r] })

/-- Lines 140-146: the loop body run for the items from position `k` on. -/
def insertItemsFrom (env : Env) (orderId : Nat) : Nat → List Item → Async Unit
  | _, [] => pure ()
  | k, it :: rest => do
    queryInsertItem env k orderId it
    insertItemsFrom env orderId (k + 1) rest

/-- Lines 140-146: `for (const it of items) { ... }`; a value that is not
iterable throws a `TypeError`. -/
def forOfItems (env : Env) (orderId : Nat) : Option (List Item) → Async Unit
  | none => raise Err.typeError
  | some items => insertItemsFrom env orderId 0 items

/-- Lines 117-149: the body of the `try` block. -/
def tryBlock (env : Env) (body : Body) : Async Unit := do
  queryBegin env
  let today := today env.now
  let sequence ← queryUpsert env today
  let billNo := billNo today sequence
  let orderId ← queryInsertOrder env (orderRow env.orderId billNo body)
  forOfItems env orderId body.items
  queryCommit env
  respond (Response.created billNo orderId)

/-- Lines 150-153: the `catch` block. -/
def catchBlock (env : Env) (_e : Err) : Async Unit := do
  queryRollback env
  respond (Response.failure 500 "Failed to create order")

/-- Lines 114-157: the handler of `POST /api/orders`. The connection is
acquired before the `try` statement. -/
def postOrders (env : Env) (body : Body) : Async Unit := do
  poolConnect env
  tryFinally (tryCatch (tryBlock env body) (catchBlock env)) release

/-- The world in which a request starts: the tables hold `db`, no transaction
is open on the connection, nothing was released or sent. -/
def startWorld (db : Db) : World := { db := db, saved := none, released := 0, responses := [] }

/-- One run of the handler on the tables `db`: whether the handler's promise
was fulfilled or rejected, and the world it leaves. -/
def run (env : Env) (db : Db) (body : Body) : Except Err Unit × World :=
  postOrders env body (startWorld db)

/-- The environment in which nothing fails. -/
def noFailure (now : Int) (orderId : Nat) : Env :=
  { now := now, fails := fun _ => false, orderId := orderId }

/-- The environment in which exactly the operations listed in `ops` fail. -/
def failingIn (now : Int) (orderId : Nat) (ops : List Op) : Env :=
  { now := now, fails := fun o => decide (o ∈ ops), orderId := orderId }

/-! ## Sample data -/

/-- The item `{name: "Tea", qty: 2, price: 10, total: 20}`. -/
def tea : Item :=
  { id := JsVal.undefined, name := JsVal.str "Tea", qty := JsVal.num 2, price := JsVal.num 10,
    total := JsVal.num 20 }

/-- The payload `{items: [tea], total: 20}`. -/
def teaBody : Body :=
  { customer_name := JsVal.undefined, phone := JsVal.undefined, session := JsVal.undefined,
    total := JsVal.num 20, items := some [tea] }

/-- The payload `{items: [], total: 0}`. -/
def emptyItemsBody : Body :=
  { customer_name := JsVal.undefined, phone := JsVal.undefined, session := JsVal.undefined,
    total := JsVal.num 0, items := some [] }

/-- The payload `{total: 20}`, without `items`. -/
def missingItemsBody : Body :=
  { customer_name := JsVal.undefined, phone := JsVal.undefined, session := JsVal.undefined,
    total := JsVal.num 20, items := none }

/-- Empty tables. -/
def emptyDb : Db := { bill_counters := [], orders := [], order_items := [] }

/-- The time value of 2024-03-05T23:30:00.000Z. -/
def lateEvening : Int := 1709681400000

/-! ## Decimal digits -/

theorem toDigitsCore_append (fuel : Nat) : ∀ (n : Nat) (acc : List Char),
    Nat.toDigitsCore 10 fuel n acc = Nat.toDigitsCore 10 fuel n [] ++ acc := by
  induction fuel with
  | zero => intro n acc; simp [Nat.toDigitsCore]
  | succ f ih =>
    intro n acc
    simp only [Nat.toDigitsCore]
    split
    · simp
    · rw [ih (n / 10) (_ :: acc), ih (n / 10) [_]]; simp

theorem toDigitsCore_fuel (fuel : Nat) : ∀ (n : Nat), n < fuel →
    Nat.toDigitsCore 10 fuel n [] = Nat.toDigitsCore 10 (n + 1) n [] := by
  induction fuel using Nat.strong_induction_on with
  | _ fuel ih =>
    intro n hn
    obtain ⟨f, rfl⟩ : ∃ f, fuel = f + 1 := ⟨fuel - 1, by omega⟩
    simp only [Nat.toDigitsCore]
    split
    · rfl
    · have h1 : n / 10 < n := by omega
      have h2 : n / 10 < f := by omega
      rw [toDigitsCore_append f, toDigitsCore_append n]
      rw [ih f (by omega) _ h2, ih n (by omega) _ h1]

/-- A number below ten is written with its one digit. -/
theorem numberToString_small (n : Nat) (h : n < 10) : numberToString n = [Nat.digitChar n] := by
  have : n / 10 = 0 := by omega
  simp [numberToString, Nat.toDigits, Nat.toDigitsCore, this, Nat.mod_eq_of_lt h]

/-- From ten on, the last digit is appended to the digits of the tenth. -/
theorem numberToString_step (n : Nat) (h : 10 ≤ n) :
    numberToString n = numberToString (n / 10) ++ [Nat.digitChar (n % 10)] := by
  have h0 : n / 10 ≠ 0 := by omega
  have h1 : n / 10 < n := by omega
  have e : Nat.toDigitsCore 10 (n + 1) n [] =
      Nat.toDigitsCore 10 n (n / 10) [Nat.digitChar (n % 10)] := by
    simp only [Nat.toDigitsCore, h0, if_false]
  unfold numberToString Nat.toDigits
  rw [e, toDigitsCore_append, toDigitsCore_fuel n _ h1]

theorem digitChar_toNat (d : Nat) (h : d < 10) : (Nat.digitChar d).toNat - 48 = d := by
  interval_cases d <;> rfl

theorem digitChar_isDigit (d : Nat) (h : d < 10) : (Nat.digitChar d).isDigit = true := by
  interval_cases d <;> rfl

theorem digitChar_ne_zero (d : Nat) (h0 : 0 < d) (h : d < 10) : Nat.digitChar d ≠ '0' := by
  interval_cases d <;> decide

theorem decimalValue_append_single (s : List Char) (c : Char) :
    decimalValue (s ++ [c]) = 10 * decimalValue s + (c.toNat - 48) := by
  simp [decimalValue, List.foldl_append]

/-- Reading the digits of a number gives the number back. -/
theorem decimalValue_numberToString (n : Nat) : decimalValue (numberToString n) = n := by
  induction n using Nat.strong_induction_on with
  | _ n ih =>
    by_cases h : n < 10
    · rw [numberToString_small n h]
      simp [decimalValue, digitChar_toNat n h]
    · rw [numberToString_step n (by omega), decimalValue_append_single, ih (n / 10) (by omega),
        digitChar_toNat _ (Nat.mod_lt _ (by decide))]
      omega

/-- Every character of a written number is a decimal digit. -/
theorem numberToString_isDigit (n : Nat) : ∀ c ∈ numberToString n, c.isDigit = true := by
  induction n using Nat.strong_induction_on with
  | _ n ih =>
    by_cases h : n < 10
    · rw [numberToString_small n h]
      intro c hc
      simp only [List.mem_singleton] at hc
      rw [hc]; exact digitChar_isDigit n h
    · rw [numberToString_step n (by omega)]
      intro c hc
      rcases List.mem_append.mp hc with hc | hc
      · exact ih (n / 10) (by omega) c hc
      · simp only [List.mem_singleton] at hc
        rw [hc]; exact digitChar_isDigit _ (Nat.mod_lt _ (by decide))

/-- A positive number is written without a leading zero. -/
theorem numberToString_head (n : Nat) (hn : 0 < n) :
    ∃ c rest, numberToString n = c :: rest ∧ c ≠ '0' := by
  induction n using Nat.strong_induction_on with
  | _ n ih =>
    by_cases h : n < 10
    · exact ⟨Nat.digitChar n, [], numberToString_small n h, digitChar_ne_zero n hn h⟩
    · obtain ⟨c, rest, e, hc⟩ := ih (n / 10) (by omega) (by omega)
      exact ⟨c, rest ++ [Nat.digitChar (n % 10)], by rw [numberToString_step n (by omega), e]; rfl, hc⟩

/-- A number of at least `10 ^ k` has more than `k` digits. -/
theorem numberToString_length_ge (k : Nat) :
    ∀ n, 10 ^ k ≤ n → k + 1 ≤ (numberToString n).length := by
  induction k with
  | zero =>
    intro n _
    by_cases h : n < 10
    · simp [numberToString_small n h]
    · rw [numberToString_step n (by omega)]; simp
  | succ k ih =>
    intro n hn
    have h10 : 10 ≤ n := by
      have : 1 ≤ 10 ^ k := Nat.one_le_pow _ _ (by decide)
      rw [pow_succ] at hn; omega
    rw [numberToString_step n h10]
    have : 10 ^ k ≤ n / 10 := by
      rw [pow_succ] at hn
      omega
    have := ih _ this
    simp; omega

/-- A number below `10 ^ k` (with `k` positive) has at most `k` digits. -/
theorem numberToString_length_le (k : Nat) :
    ∀ n, 0 < k → n < 10 ^ k → (numberToString n).length ≤ k := by
  induction k with
  | zero => intro n h; omega
  | succ k ih =>
    intro n _ hn
    by_cases h : n < 10
    · simp [numberToString_small n h]
    · have hk : 0 < k := by
        rcases Nat.eq_zero_or_pos k with h0 | h0
        · subst h0; simp at hn; omega
        · exact h0
      rw [numberToString_step n (by omega)]
      have : n / 10 < 10 ^ k := by
        rw [pow_succ] at hn
        omega
      have := ih _ hk this
      simp; omega

/-- Padding with the one-character filler `"0"` puts the missing zeros in front. -/
theorem padStart_zero (w : Nat) (s : List Char) :
    padStart w ['0'] s = List.replicate (w - s.length) '0' ++ s := by
  unfold padStart
  split
  · rename_i h
    simp [Nat.sub_eq_zero_of_le h]
  · simp

theorem decimalValue_zeros (k : Nat) (s : List Char) :
    decimalValue (List.replicate k '0' ++ s) = decimalValue s := by
  induction k with
  | zero => simp
  | succ k ih =>
    simp only [List.replicate_succ, List.cons_append]
    simp only [decimalValue, List.foldl_cons] at ih ⊢
    exact ih

/-- The padded counter still denotes the counter. -/
theorem decimalValue_padStart (w n : Nat) :
    decimalValue (padStart w ['0'] (numberToString n)) = n := by
  rw [padStart_zero, decimalValue_zeros, decimalValue_numberToString]

/-- Up to 9999 the padded counter is the four digits of the number. -/
theorem padStart_four (n : Nat) (h : n ≤ 9999) :
    padStart 4 ['0'] (numberToString n) =
      [Nat.digitChar (n / 1000), Nat.digitChar (n / 100 % 10), Nat.digitChar (n / 10 % 10),
        Nat.digitChar (n % 10)] := by
  rw [padStart_zero]
  by_cases h1 : n < 10
  · rw [numberToString_small n h1]
    have a : n / 1000 = 0 := by omega
    have b : n / 100 % 10 = 0 := by omega
    have c : n / 10 % 10 = 0 := by omega
    have d : n % 10 = n := by omega
    simp [a, b, c, d]
    rfl
  · have e1 := numberToString_step n (by omega)
    by_cases h2 : n < 100
    · rw [e1, numberToString_small (n / 10) (by omega)]
      have a : n / 1000 = 0 := by omega
      have b : n / 100 % 10 = 0 := by omega
      have c : n / 10 % 10 = n / 10 := by omega
      simp [a, b, c]
      rfl
    · have e2 := numberToString_step (n / 10) (by omega)
      by_cases h3 : n < 1000
      · rw [e1, e2, numberToString_small (n / 10 / 10) (by omega)]
        have a : n / 1000 = 0 := by omega
        have b : n / 100 % 10 = n / 10 / 10 := by omega
        simp [a, b]
        rfl
      · have e3 := numberToString_step (n / 10 / 10) (by omega)
        rw [e1, e2, e3, numberToString_small (n / 10 / 10 / 10) (by omega)]
        have a : n / 1000 = n / 10 / 10 / 10 := by omega
        have b : n / 100 % 10 = n / 10 / 10 % 10 := by omega
        simp [a, b]

/-- Above 9999 the counter is not padded. -/
theorem padStart_wide (n : Nat) (h : 9999 < n) :
    padStart 4 ['0'] (numberToString n) = numberToString n := by
  have := numberToString_length_ge 4 n (by norm_num; omega)
  unfold padStart
  rw [if_pos (by omega)]

/-- Removing the hyphens leaves a string of digits as it is. -/
theorem removeHyphens_digits (s : List Char) (h : ∀ c ∈ s, c.isDigit = true) :
    removeHyphens s = s := by
  unfold removeHyphens
  rw [List.filter_eq_self]
  intro c hc
  have := h c hc
  simp only [bne_iff_ne, ne_eq]
  rintro rfl
  exact absurd this (by decide)

/-- The hyphens of a date key are removed, its eight digits stay. -/
theorem removeHyphens_dateKey (y m d : List Char) (h : ∀ c ∈ y ++ m ++ d, c.isDigit = true) :
    removeHyphens (y ++ '-' :: m ++ '-' :: d) = y ++ m ++ d := by
  have hy : ∀ c ∈ y, c.isDigit = true := fun c hc => h c (by simp [hc])
  have hm : ∀ c ∈ m, c.isDigit = true := fun c hc => h c (by simp [hc])
  have hd : ∀ c ∈ d, c.isDigit = true := fun c hc => h c (by simp [hc])
  have e : y ++ '-' :: m ++ '-' :: d = y ++ ('-' :: (m ++ '-' :: d)) := by simp
  rw [e]
  unfold removeHyphens
  rw [List.filter_append, List.filter_cons_of_neg (by decide), List.filter_append,
    List.filter_cons_of_neg (by decide)]
  have := removeHyphens_digits y hy
  have := removeHyphens_digits m hm
  have := removeHyphens_digits d hd
  unfold removeHyphens at *
  simp [*]

/-! ## Bill numbers -/

/-- C2. For a date key `YYYY-MM-DD` (digits `y`, `m`, `d`) and a positive counter
`n`, the bill number is the eight date digits, a hyphen, and the decimal
representation of `n` (digits only, no leading zero, denoting `n`) with zeros
put in front up to width 4: for `n ≤ 9999` the suffix is exactly the four
digits of `n`, for `n > 9999` it is the plain representation, which has at
least five digits. Date 2024-03-05 gives `20240305-0007` for 7 and
`20240305-10001` for 10001. -/
theorem billNo_format (y m d : List Char) (hy : y.length = 4) (hm : m.length = 2)
    (hd : d.length = 2) (hdig : ∀ c ∈ y ++ m ++ d, c.isDigit = true) (n : Nat) (hn : 0 < n) :
    IsDateKey (String.mk (y ++ '-' :: m ++ '-' :: d)) ∧
    billNo (String.mk (y ++ '-' :: m ++ '-' :: d)) n =
      String.mk (y ++ m ++ d ++ '-' ::
        (List.replicate (4 - (numberToString n).length) '0' ++ numberToString n)) ∧
    ((∀ c ∈ numberToString n, c.isDigit = true) ∧ decimalValue (numberToString n) = n ∧
      ∃ c rest, numberToString n = c :: rest ∧ c ≠ '0') ∧
    (n ≤ 9999 →
      billNo (String.mk (y ++ '-' :: m ++ '-' :: d)) n =
        String.mk (y ++ m ++ d ++ ['-', Nat.digitChar (n / 1000), Nat.digitChar (n / 100 % 10),
          Nat.digitChar (n / 10 % 10), Nat.digitChar (n % 10)])) ∧
    (9999 < n →
      5 ≤ (numberToString n).length ∧
      billNo (String.mk (y ++ '-' :: m ++ '-' :: d)) n =
        String.mk (y ++ m ++ d ++ '-' :: numberToString n)) ∧
    billNo "2024-03-05" 7 = "20240305-0007" ∧
    billNo "2024-03-05" 10001 = "20240305-10001" := by
  have hr := removeHyphens_dateKey y m d hdig
  refine ⟨⟨y, m, d, hy, hm, hd, hdig, rfl⟩, ?_, ⟨numberToString_isDigit n,
    decimalValue_numberToString n, numberToString_head n hn⟩, ?_, ?_, by decide, by decide⟩
  · simp only [billNo, hr, padStart_zero]
  · intro h
    simp only [billNo, hr, padStart_four n h]
  · intro h
    refine ⟨numberToString_length_ge 4 n (by norm_num; omega), ?_⟩
    simp only [billNo, hr, padStart_wide n h]

/-- C2, at the date key 2024-03-05 and the counter 7. -/
theorem billNo_format_witness :
    billNo "2024-03-05" 7 = String.mk ("2024".data ++ "03".data ++ "05".data ++
      ['-', Nat.digitChar (7 / 1000), Nat.digitChar (7 / 100 % 10), Nat.digitChar (7 / 10 % 10),
        Nat.digitChar (7 % 10)]) :=
  (billNo_format "2024".data "03".data "05".data rfl rfl rfl (by decide) 7
    (by decide)).2.2.2.1 (by decide)

/-- C10. Bill numbers determine the date key and the counter: if two date keys
of the form `YYYY-MM-DD` and two counters give the same bill number, the date
keys are equal and the counters are equal; so on one date two different
counters, whether below or above 9999, never give the same bill number. -/
theorem billNo_injective (d1 d2 : String) (n1 n2 : Nat) (h1 : IsDateKey d1) (h2 : IsDateKey d2) :
    (billNo d1 n1 = billNo d2 n2 → d1 = d2 ∧ n1 = n2) ∧
    (n1 ≠ n2 → billNo d1 n1 ≠ billNo d1 n2) := by
  have key : ∀ (a b : String) (p q : Nat), IsDateKey a → IsDateKey b →
      billNo a p = billNo b q → a = b ∧ p = q := by
    intro a b p q ha hb h
    obtain ⟨ya, ma, da, hya, hma, hda, hdiga, rfl⟩ := ha
    obtain ⟨yb, mb, db, hyb, hmb, hdb, hdigb, rfl⟩ := hb
    have h := congrArg String.data h
    simp only [billNo, removeHyphens_dateKey _ _ _ hdiga, removeHyphens_dateKey _ _ _ hdigb] at h
    have hlen : (ya ++ ma ++ da).length = (yb ++ mb ++ db).length := by
      simp [hya, hma, hda, hyb, hmb, hdb]
    obtain ⟨hpre, hsuf⟩ := List.append_inj h hlen
    have hlen2 : (ya ++ ma).length = (yb ++ mb).length := by simp [hya, hma, hyb, hmb]
    obtain ⟨hym, hdd⟩ := List.append_inj hpre hlen2
    obtain ⟨hyy, hmm⟩ := List.append_inj hym (by rw [hya, hyb])
    have hv := congrArg decimalValue (List.cons.inj hsuf).2
    rw [decimalValue_padStart, decimalValue_padStart] at hv
    exact ⟨by rw [hyy, hmm, hdd], hv⟩
  exact ⟨key d1 d2 n1 n2 h1 h2, fun hne h => hne (key d1 d1 n1 n2 h1 h1 h).2⟩

/-- C10, at the date key 2024-03-05 with the counters 1 and 10001. -/
theorem billNo_injective_witness : billNo "2024-03-05" 1 ≠ billNo "2024-03-05" 10001 :=
  (billNo_injective "2024-03-05" "2024-03-05" 1 10001
    ⟨"2024".data, "03".data, "05".data, rfl, rfl, rfl, by decide, rfl⟩
    ⟨"2024".data, "03".data, "05".data, rfl, rfl, rfl, by decide, rfl⟩).2 (by decide)

/-! ## The counter table -/

theorem lookupCounter_eq_none (key : String) (t : Counters) (h : rowsOf key t = []) :
    lookupCounter key t = none := by
  induction t with
  | nil => rfl
  | cons r rest ih =>
    obtain ⟨k, c⟩ := r
    by_cases hk : k = key
    · simp [rowsOf, hk] at h
    · have hrest : rowsOf key rest = [] := by simpa [rowsOf, hk] using h
      simp [lookupCounter, hk, ih hrest]

theorem rowsOf_eq_nil (key : String) (t : Counters) (h : key ∉ t.map Prod.fst) :
    rowsOf key t = [] := by
  induction t with
  | nil => rfl
  | cons r rest ih =>
    obtain ⟨k, c⟩ := r
    simp only [List.map_cons, List.mem_cons, not_or] at h
    have hk : ¬ k = key := fun e => h.1 e.symm
    simpa [rowsOf, hk] using ih h.2

theorem lookupCounter_of_mem (key : String) (c : Nat) (t : Counters) (hu : UniqueKeys t)
    (h : (key, c) ∈ t) : lookupCounter key t = some c := by
  induction t with
  | nil => simp at h
  | cons r rest ih =>
    obtain ⟨k, c0⟩ := r
    have hu2 : (k ∉ rest.map Prod.fst) ∧ UniqueKeys rest := by
      simpa [UniqueKeys] using hu
    rcases List.mem_cons.mp h with h | h
    · simp only [Prod.mk.injEq] at h
      simp [lookupCounter, h.1, h.2]
    · have hk : ¬ k = key := by
        rintro rfl
        exact hu2.1 (List.mem_map.mpr ⟨(k, c), h, rfl⟩)
      simp [lookupCounter, hk, ih hu2.2 h]

/-- The returned counter is the stored one plus one (0 standing for no row). -/
theorem upsertCounter_snd (key : String) (t : Counters) :
    (upsertCounter key t).2 = storedCounter key t + 1 := by
  induction t with
  | nil => rfl
  | cons r rest ih =>
    obtain ⟨k, c⟩ := r
    by_cases hk : k = key
    · simp [upsertCounter, storedCounter, lookupCounter, hk]
    · simpa [upsertCounter, storedCounter, lookupCounter, hk] using ih

/-- After the upsert the stored counter is the returned one. -/
theorem lookupCounter_upsertCounter (key : String) (t : Counters) :
    lookupCounter key (upsertCounter key t).1 = some (upsertCounter key t).2 := by
  induction t with
  | nil => simp [upsertCounter, lookupCounter]
  | cons r rest ih =>
    obtain ⟨k, c⟩ := r
    by_cases hk : k = key
    · simp [upsertCounter, lookupCounter, hk]
    · simpa [upsertCounter, lookupCounter, hk] using ih

/-- The rows of the other keys are untouched. -/
theorem rowsOf_upsertCounter_other (key k : String) (t : Counters) (h : k ≠ key) :
    rowsOf k (upsertCounter key t).1 = rowsOf k t := by
  induction t with
  | nil =>
    have : ¬ key = k := fun e => h e.symm
    simp [upsertCounter, rowsOf, this]
  | cons r rest ih =>
    obtain ⟨k0, c⟩ := r
    by_cases hk : k0 = key
    · subst hk
      have hne : ¬ k0 = k := fun e => h e.symm
      simp [upsertCounter, rowsOf, List.filter_cons, hne]
    · unfold rowsOf at ih ⊢
      simp only [upsertCounter, hk, if_false, List.filter_cons]
      rw [ih]

theorem keys_upsertCounter (key : String) (t : Counters) :
    (upsertCounter key t).1.map Prod.fst =
      if key ∈ t.map Prod.fst then t.map Prod.fst else t.map Prod.fst ++ [key] := by
  induction t with
  | nil => simp [upsertCounter]
  | cons r rest ih =>
    obtain ⟨k, c⟩ := r
    by_cases hk : k = key
    · simp [upsertCounter, hk]
    · have hk2 : ¬ key = k := fun e => hk e.symm
      simp only [upsertCounter, hk, if_false, List.map_cons, ih, List.mem_cons, hk2, false_or]
      split <;> simp

/-- The upsert keeps the keys unique. -/
theorem uniqueKeys_upsertCounter (key : String) (t : Counters) (hu : UniqueKeys t) :
    UniqueKeys (upsertCounter key t).1 := by
  unfold UniqueKeys at hu ⊢
  rw [keys_upsertCounter]
  split
  · exact hu
  · rename_i h
    rw [List.nodup_append]
    refine ⟨hu, List.nodup_singleton _, ?_⟩
    intro a ha hb
    simp only [List.mem_singleton] at hb
    exact h (hb ▸ ha)

/-- With unique keys, the key has exactly one row after the upsert. -/
theorem rowsOf_upsertCounter_self (key : String) (t : Counters) (hu : UniqueKeys t) :
    rowsOf key (upsertCounter key t).1 = [(key, (upsertCounter key t).2)] := by
  induction t with
  | nil => simp [upsertCounter, rowsOf]
  | cons r rest ih =>
    obtain ⟨k, c⟩ := r
    have hu2 : (k ∉ rest.map Prod.fst) ∧ UniqueKeys rest := by
      simpa [UniqueKeys] using hu
    by_cases hk : k = key
    · have hnil := rowsOf_eq_nil key rest (hk ▸ hu2.1)
      unfold rowsOf at hnil ⊢
      simp [upsertCounter, hk, hnil]
    · have := ih hu2.2
      unfold rowsOf at this ⊢
      simp only [upsertCounter, hk, if_false, List.filter_cons, decide_False]
      simpa using this

/-- Successive allocations add up. -/
theorem storedCounter_allocate (key : String) (j : Nat) :
    ∀ t : Counters, storedCounter key (allocate key j t) = storedCounter key t + j := by
  induction j with
  | zero => intro t; rfl
  | succ j ih =>
    intro t
    have e : storedCounter key (upsertCounter key t).1 = storedCounter key t + 1 := by
      unfold storedCounter
      rw [lookupCounter_upsertCounter, Option.getD_some, upsertCounter_snd]
      rfl
    simp only [allocate]
    rw [ih, e]
    omega

/-- C1. The upsert of the counter table: without a row for `key` it returns 1,
with a row `(key, c)` it returns `c + 1`; afterwards the table has exactly one
row for `key`, holding the returned value, the keys are still unique, and the
rows of every other key are as before. So `j` successive allocations for `key`
raise its stored counter by exactly `j`. -/
theorem upsertCounter_allocation (t : Counters) (key : String) (hu : UniqueKeys t) :
    (rowsOf key t = [] → (upsertCounter key t).2 = 1) ∧
    (∀ c, (key, c) ∈ t → (upsertCounter key t).2 = c + 1) ∧
    lookupCounter key (upsertCounter key t).1 = some (upsertCounter key t).2 ∧
    rowsOf key (upsertCounter key t).1 = [(key, (upsertCounter key t).2)] ∧
    UniqueKeys (upsertCounter key t).1 ∧
    (∀ k, k ≠ key → rowsOf k (upsertCounter key t).1 = rowsOf k t) ∧
    (∀ j, storedCounter key (allocate key j t) = storedCounter key t + j) := by
  refine ⟨?_, ?_, lookupCounter_upsertCounter key t, rowsOf_upsertCounter_self key t hu,
    uniqueKeys_upsertCounter key t hu, fun k hk => rowsOf_upsertCounter_other key k t hk,
    fun j => storedCounter_allocate key j t⟩
  · intro h
    rw [upsertCounter_snd, storedCounter, lookupCounter_eq_none key t h]
    rfl
  · intro c h
    rw [upsertCounter_snd, storedCounter, lookupCounter_of_mem key c t hu h]
    rfl

/-- C1, on a table with the rows 2024-03-04 (counter 9) and 2024-03-05 (counter 3):
the allocation for 2024-03-05 returns 4 and leaves the other row alone. -/
theorem upsertCounter_allocation_witness :
    (upsertCounter "2024-03-05" [("2024-03-04", 9), ("2024-03-05", 3)]).2 = 3 + 1 ∧
    rowsOf "2024-03-04" (upsertCounter "2024-03-05" [("2024-03-04", 9), ("2024-03-05", 3)]).1 =
      rowsOf "2024-03-04" [("2024-03-04", 9), ("2024-03-05", 3)] :=
  ⟨(upsertCounter_allocation [("2024-03-04", 9), ("2024-03-05", 3)] "2024-03-05"
      (by decide)).2.1 3 (by decide),
    (upsertCounter_allocation [("2024-03-04", 9), ("2024-03-05", 3)] "2024-03-05"
      (by decide)).2.2.2.2.2.1 "2024-03-04" (by decide)⟩

/-! ## The date key -/

/-- Month and day of a calendar date are in range. -/
theorem civilFromDays_bounds (days : Int) :
    1 ≤ (civilFromDays days).month ∧ (civilFromDays days).month ≤ 12 ∧
    1 ≤ (civilFromDays days).day ∧ (civilFromDays days).day ≤ 31 := by
  simp only [civilFromDays]
  split <;> omega

/-- Time values from 0000-01-01T00:00:00.000Z up to 9999-12-31T23:59:59.999Z
have a year of four digits. -/
theorem civilFromDays_year (now : Int) (h : -62167219200000 ≤ now ∧ now < 253402300800000) :
    0 ≤ (civilFromDays (Day now)).year ∧ (civilFromDays (Day now)).year ≤ 9999 := by
  simp only [civilFromDays, Day, msPerDay]
  split <;> omega

theorem pad_length (w : Nat) (n : Int) (hw : 0 < w) (h0 : 0 ≤ n) (h : n < 10 ^ w) :
    (pad w n).length = w := by
  have hn : n.toNat < 10 ^ w := by
    have : (n.toNat : Int) < ((10 ^ w : Nat) : Int) := by
      rw [Int.toNat_of_nonneg h0]; push_cast; exact h
    exact_mod_cast this
  have := numberToString_length_le w n.toNat hw hn
  rw [pad, padStart_zero]
  simp; omega

theorem pad_isDigit (w : Nat) (n : Int) : ∀ c ∈ pad w n, c.isDigit = true := by
  intro c hc
  rw [pad, padStart_zero] at hc
  rcases List.mem_append.mp hc with hc | hc
  · rw [(List.mem_replicate.mp hc).2]; rfl
  · exact numberToString_isDigit _ c hc

/-- For a four-digit year the ISO text starts with the ten characters of the
date. -/
theorem formatDate_length (days : Int) (hy : 0 ≤ (civilFromDays days).year ∧
    (civilFromDays days).year ≤ 9999) : (formatDate (civilFromDays days)).length = 10 := by
  obtain ⟨hm1, hm2, hd1, hd2⟩ := civilFromDays_bounds days
  have ly : (yearString (civilFromDays days).year).length = 4 := by
    rw [yearString, if_pos hy]
    exact pad_length 4 _ (by decide) hy.1 (by norm_num; omega)
  have lm := pad_length 2 (civilFromDays days).month (by decide) (by omega) (by norm_num; omega)
  have ld := pad_length 2 (civilFromDays days).day (by decide) (by omega) (by norm_num; omega)
  simp [formatDate, ly, lm, ld]

/-- The date key is the UTC calendar date. -/
theorem today_eq_formatDate (now : Int) (h : -62167219200000 ≤ now ∧ now < 253402300800000) :
    today now = String.mk (formatDate (civilFromDays (Day now))) := by
  have hl := formatDate_length (Day now) (civilFromDays_year now h)
  have e : toISOString now = formatDate (civilFromDays (Day now)) ++
      ('T' :: pad 2 (TimeWithinDay now / 3600000) ++ ':' :: pad 2 (TimeWithinDay now / 60000 % 60)
        ++ ':' :: pad 2 (TimeWithinDay now / 1000 % 60) ++ '.' :: pad 3 (TimeWithinDay now % 1000)
        ++ ['Z']) := by
    simp [toISOString, formatDate]
  rw [today, slice10, e, List.take_left' hl]

/-- C8 (amended). The date key is the UTC calendar date of the request instant,
whatever the local offset: for every instant of the years 0000 to 9999 it is
the text `YYYY-MM-DD` of the UTC date, a well-formed date key; it is the local
calendar date whenever local time and UTC are on the same day number. -/
theorem today_is_utc_date (now offsetMinutes : Int)
    (h : -62167219200000 ≤ now ∧ now < 253402300800000) :
    today now = String.mk (formatDate (civilFromDays (Day now))) ∧
    IsDateKey (today now) ∧
    (Day (LocalTime now offsetMinutes) = Day now →
      today now = String.mk (formatDate (localDate now offsetMinutes))) := by
  have e := today_eq_formatDate now h
  have hy := civilFromDays_year now h
  obtain ⟨hm1, hm2, hd1, hd2⟩ := civilFromDays_bounds (Day now)
  refine ⟨e, ?_, ?_⟩
  · refine ⟨pad 4 (civilFromDays (Day now)).year, pad 2 (civilFromDays (Day now)).month,
      pad 2 (civilFromDays (Day now)).day,
      pad_length 4 _ (by decide) hy.1 (by norm_num; omega),
      pad_length 2 _ (by decide) (by omega) (by norm_num; omega),
      pad_length 2 _ (by decide) (by omega) (by norm_num; omega), ?_, ?_⟩
    · intro c hc
      rcases List.mem_append.mp hc with hc | hc
      · rcases List.mem_append.mp hc with hc | hc
        · exact pad_isDigit _ _ c hc
        · exact pad_isDigit _ _ c hc
      · exact pad_isDigit _ _ c hc
    · rw [e, formatDate, yearString, if_pos hy]
  · intro hday
    rw [e, localDate, hday]

/-- C8 (amended), at 2024-03-05T23:30:00.000Z with a local clock 30 minutes
behind UTC. -/
theorem today_is_utc_date_witness :
    today lateEvening = String.mk (formatDate (localDate lateEvening (-30))) :=
  (today_is_utc_date lateEvening (-30) (by decide)).2.2 (by decide)

/-- C8, refuted as stated: at 2024-03-05T23:30:00.000Z on a clock that is
5 hours 30 minutes ahead of UTC the local date is 2024-03-06, the date key is
2024-03-05. -/
theorem today_is_not_local_date :
    today lateEvening = "2024-03-05" ∧
    String.mk (formatDate (localDate lateEvening 330)) = "2024-03-06" ∧
    today lateEvening ≠ String.mk (formatDate (localDate lateEvening 330)) := by
  decide

/-! ## The handler -/

theorem bind_apply {α β : Type} (m : Async α) (f : α → Async β) (w : World) :
    (m >>= f) w =
      match m w with
      | (Except.ok a, w1) => f a w1
      | (Except.error e, w1) => (Except.error e, w1) := rfl

theorem pure_apply {α : Type} (a : α) (w : World) :
    (pure a : Async α) w = (Except.ok a, w) := rfl

theorem storageOp_ok {α : Type} (env : Env) (op : Op) (res : World → α) (eff : World → World)
    (w : World) (h : env.fails op = false) :
    storageOp env op res eff w = (Except.ok (res w), eff w) := by
  simp [storageOp, h]

theorem storageOp_fail {α : Type} (env : Env) (op : Op) (res : World → α)
    (eff : World → World) (w : World) (h : env.fails op = true) :
    storageOp env op res eff w = (Except.error (Err.storage op), w) := by
  simp [storageOp, h]

/-- The item loop without a failure appends one row per item, in input order. -/
theorem insertItemsFrom_ok (env : Env) (orderId : Nat) (items : List Item) :
    ∀ (k : Nat) (w : World), (∀ j, j < items.length → env.fails (Op.insertItem (k + j)) = false) →
      insertItemsFrom env orderId k items w =
        (Except.ok (), { w with db := { w.db with
          order_items := w.db.order_items ++ items.map (itemRow orderId) } }) := by
  induction items with
  | nil => intro k w _; simp [insertItemsFrom, pure_apply]
  | cons it rest ih =>
    intro k w h
    have h0 : env.fails (Op.insertItem k) = false := by simpa using h 0 (by simp)
    have hrest : ∀ j, j < rest.length → env.fails (Op.insertItem (k + 1 + j)) = false := by
      intro j hj
      have := h (j + 1) (by simp; omega)
      rwa [show k + (j + 1) = k + 1 + j by omega] at this
    simp only [insertItemsFrom, bind_apply, queryInsertItem, storageOp_ok _ _ _ _ _ h0]
    rw [ih (k + 1) _ hrest]
    simp

/-- The item loop with a failing insert throws. -/
theorem insertItemsFrom_fail (env : Env) (orderId : Nat) (items : List Item) :
    ∀ (k : Nat) (w : World), (∃ j, j < items.length ∧ env.fails (Op.insertItem (k + j)) = true) →
      ∃ e, (insertItemsFrom env orderId k items w).1 = Except.error e := by
  induction items with
  | nil => intro k w ⟨j, hj, _⟩; simp at hj
  | cons it rest ih =>
    intro k w ⟨j, hj, hf⟩
    cases h0 : env.fails (Op.insertItem k) with
    | true =>
      exact ⟨Err.storage (Op.insertItem k), by simp only [insertItemsFrom, bind_apply,
        queryInsertItem, storageOp_fail _ _ _ _ _ h0]⟩
    | false =>
      have hj0 : j ≠ 0 := by
        rintro rfl
        rw [Nat.add_zero, h0] at hf
        exact Bool.noConfusion hf
      obtain ⟨e, he⟩ := ih (k + 1) ((fun w => { w with db := { w.db with
          order_items := w.db.order_items ++ [itemRow orderId it] } }) w)
        ⟨j - 1, by simp at hj; omega, by rwa [show k + 1 + (j - 1) = k + j by omega]⟩
      refine ⟨e, ?_⟩
      simp only [insertItemsFrom, bind_apply, queryInsertItem, storageOp_ok _ _ _ _ _ h0]
      exact he

/-- The item loop touches nothing but the tables. -/
theorem insertItemsFrom_frame (env : Env) (orderId : Nat) (items : List Item) :
    ∀ (k : Nat) (w : World),
      (insertItemsFrom env orderId k items w).2.saved = w.saved ∧
      (insertItemsFrom env orderId k items w).2.released = w.released ∧
      (insertItemsFrom env orderId k items w).2.responses = w.responses := by
  induction items with
  | nil => intro k w; simp [insertItemsFrom, pure_apply]
  | cons it rest ih =>
    intro k w
    cases h0 : env.fails (Op.insertItem k) with
    | true =>
      simp only [insertItemsFrom, bind_apply, queryInsertItem, storageOp_fail _ _ _ _ _ h0]
      simp
    | false =>
      simp only [insertItemsFrom, bind_apply, queryInsertItem, storageOp_ok _ _ _ _ _ h0]
      exact ih (k + 1) _

/-- The statement `for ... of` touches nothing but the tables. -/
theorem forOfItems_frame (env : Env) (orderId : Nat) (items : Option (List Item)) (w : World) :
    (forOfItems env orderId items w).2.saved = w.saved ∧
    (forOfItems env orderId items w).2.released = w.released ∧
    (forOfItems env orderId items w).2.responses = w.responses := by
  cases items with
  | none => simp [forOfItems, raise]
  | some l => exact insertItemsFrom_frame env orderId l 0 w

/-- When the `try` block throws, no response was sent, nothing was released,
and either the transaction is still open on the content saved at `BEGIN` or
nothing happened at all. -/
theorem tryBlock_error (env : Env) (body : Body) (w w1 : World) (e : Err)
    (h : tryBlock env body w = (Except.error e, w1)) :
    w1.released = w.released ∧ w1.responses = w.responses ∧
      (w1.saved = some w.db ∨ w1 = w) := by
  unfold tryBlock at h
  simp only [bind_apply, queryBegin, queryUpsert, queryInsertOrder, queryCommit] at h
  cases hb : env.fails Op.begin with
  | true =>
    simp only [storageOp_fail _ _ _ _ _ hb, Prod.mk.injEq] at h
    rw [← h.2]; simp
  | false =>
    simp only [storageOp_ok _ _ _ _ _ hb] at h
    cases hu : env.fails Op.upsert with
    | true =>
      simp only [storageOp_fail _ _ _ _ _ hu, Prod.mk.injEq] at h
      rw [← h.2]; simp
    | false =>
      simp only [storageOp_ok _ _ _ _ _ hu] at h
      cases ho : env.fails Op.insertOrder with
      | true =>
        simp only [storageOp_fail _ _ _ _ _ ho, Prod.mk.injEq] at h
        rw [← h.2]; simp
      | false =>
        simp only [storageOp_ok _ _ _ _ _ ho] at h
        generalize hw3 : ({ db := _, saved := _, released := _, responses := _ } : World) = w3 at h
        have hfr := forOfItems_frame env (orderRow env.orderId
          (billNo (today env.now) (upsertCounter (today env.now) w.db.bill_counters).2) body).id
          body.items w3
        rcases hloop : forOfItems env (orderRow env.orderId
          (billNo (today env.now) (upsertCounter (today env.now) w.db.bill_counters).2) body).id
          body.items w3 with ⟨r, w4⟩
        rw [hloop] at h hfr
        simp only at hfr
        have hs3 : w3.saved = some w.db ∧ w3.released = w.released ∧
            w3.responses = w.responses := by
          rw [← hw3]; simp
        cases r with
        | error e2 =>
          simp only [Prod.mk.injEq] at h
          rw [← h.2, hfr.1, hfr.2.1, hfr.2.2]
          exact ⟨hs3.2.1, hs3.2.2, Or.inl hs3.1⟩
        | ok u =>
          simp only at h
          cases hc : env.fails Op.commit with
          | true =>
            simp only [storageOp_fail _ _ _ _ _ hc, Prod.mk.injEq] at h
            rw [← h.2, hfr.1, hfr.2.1, hfr.2.2]
            exact ⟨hs3.2.1, hs3.2.2, Or.inl hs3.1⟩
          | false =>
            simp only [storageOp_ok _ _ _ _ _ hc, respond, Prod.mk.injEq] at h
            exact absurd h.1 (by simp)

/-- When the `try` block completes, no operation of the transaction failed,
`items` was a list, and the world is the committed one: the counter upserted,
one order row and one row per item appended, the response sent. -/
theorem tryBlock_ok (env : Env) (body : Body) (w w1 : World) (u : Unit)
    (h : tryBlock env body w = (Except.ok u, w1)) :
    env.fails Op.begin = false ∧ env.fails Op.upsert = false ∧
    env.fails Op.insertOrder = false ∧ env.fails Op.commit = false ∧
    ∃ items, body.items = some items ∧
      (∀ k, k < items.length → env.fails (Op.insertItem k) = false) ∧
      w1 = { db := { bill_counters := (upsertCounter (today env.now) w.db.bill_counters).1,
                     orders := w.db.orders ++ [orderRow env.orderId (billNo (today env.now)
                       (upsertCounter (today env.now) w.db.bill_counters).2) body],
                     order_items := w.db.order_items ++ items.map (itemRow env.orderId) },
             saved := none,
             released := w.released,
             responses := w.responses ++ [Response.created (billNo (today env.now)
               (upsertCounter (today env.now) w.db.bill_counters).2) env.orderId] } := by
  unfold tryBlock at h
  simp only [bind_apply, queryBegin, queryUpsert, queryInsertOrder, queryCommit] at h
  cases hb : env.fails Op.begin with
  | true =>
    simp only [storageOp_fail _ _ _ _ _ hb, Prod.mk.injEq] at h
    exact absurd h.1 (by simp)
  | false =>
    simp only [storageOp_ok _ _ _ _ _ hb] at h
    cases hu : env.fails Op.upsert with
    | true =>
      simp only [storageOp_fail _ _ _ _ _ hu, Prod.mk.injEq] at h
      exact absurd h.1 (by simp)
    | false =>
      simp only [storageOp_ok _ _ _ _ _ hu] at h
      cases ho : env.fails Op.insertOrder with
      | true =>
        simp only [storageOp_fail _ _ _ _ _ ho, Prod.mk.injEq] at h
        exact absurd h.1 (by simp)
      | false =>
        simp only [storageOp_ok _ _ _ _ _ ho] at h
        cases hitems : body.items with
        | none =>
          simp only [hitems, forOfItems, raise, Prod.mk.injEq] at h
          exact absurd h.1 (by simp)
        | some items =>
          simp only [hitems, forOfItems] at h
          have hall : ∀ k, k < items.length → env.fails (Op.insertItem k) = false := by
            intro k hk
            cases hf : env.fails (Op.insertItem k) with
            | false => rfl
            | true =>
              exfalso
              obtain ⟨e, he⟩ := insertItemsFrom_fail env (orderRow env.orderId
                (billNo (today env.now) (upsertCounter (today env.now) w.db.bill_counters).2)
                body).id items 0
                { db :=
                    { bill_counters := (upsertCounter (today env.now) w.db.bill_counters).1,
                      orders := w.db.orders ++ [orderRow env.orderId (billNo (today env.now)
                        (upsertCounter (today env.now) w.db.bill_counters).2) body],
                      order_items := w.db.order_items },
                  saved := some w.db,
                  released := w.released,
                  responses := w.responses } ⟨k, hk, by rwa [Nat.zero_add]⟩
              simp only [orderRow] at he h
              revert h
              generalize insertItemsFrom env env.orderId 0 items _ = res at he
              obtain ⟨r, w4⟩ := res
              simp only at he
              subst he
              intro h
              simp only [Prod.mk.injEq] at h
              exact absurd h.1 (by simp)
          rw [insertItemsFrom_ok env _ items 0 _ (by simpa using hall)] at h
          simp only at h
          cases hc : env.fails Op.commit with
          | true =>
            simp only [storageOp_fail _ _ _ _ _ hc, Prod.mk.injEq] at h
            exact absurd h.1 (by simp)
          | false =>
            simp only [storageOp_ok _ _ _ _ _ hc, respond, Prod.mk.injEq] at h
            exact ⟨rfl, rfl, rfl, rfl, items, rfl, hall, by rw [← h.2]; simp [orderRow]⟩

/-- Without a failure and with a list of items the `try` block completes. -/
theorem tryBlock_success (env : Env) (body : Body) (items : List Item) (w : World)
    (hitems : body.items = some items) (hok : ∀ op, env.fails op = false) :
    ∃ w1, tryBlock env body w = (Except.ok (), w1) := by
  unfold tryBlock
  simp only [bind_apply, queryBegin, queryUpsert, queryInsertOrder, queryCommit,
    storageOp_ok _ _ _ _ _ (hok _), hitems, forOfItems]
  rw [insertItemsFrom_ok env _ items 0 _ (fun j _ => hok _)]
  simp only [storageOp_ok _ _ _ _ _ (hok _), respond]
  exact ⟨_, rfl⟩

/-- A rejected `pool.connect()` rejects the handler before the `try` statement:
nothing else happens. -/
theorem run_connect_fail (env : Env) (db : Db) (body : Body)
    (hc : env.fails Op.connect = true) :
    run env db body = (Except.error (Err.storage Op.connect), startWorld db) := by
  simp only [run, postOrders, bind_apply, poolConnect, storageOp_fail _ _ _ _ _ hc]

/-- A completed `try` block is followed by the release only. -/
theorem run_of_ok (env : Env) (db : Db) (body : Body) (w1 : World) (u : Unit)
    (hc : env.fails Op.connect = false)
    (h : tryBlock env body (startWorld db) = (Except.ok u, w1)) :
    run env db body = (Except.ok u, { w1 with released := w1.released + 1 }) := by
  simp only [run, postOrders, bind_apply, poolConnect, storageOp_ok _ _ _ _ _ hc, tryFinally,
    tryCatch, id, h, release]

/-- A `try` block that throws is followed by a successful `ROLLBACK`, the
failure response and the release. -/
theorem run_of_error (env : Env) (db : Db) (body : Body) (w1 : World) (e : Err)
    (hc : env.fails Op.connect = false) (hr : env.fails Op.rollback = false)
    (h : tryBlock env body (startWorld db) = (Except.error e, w1)) :
    run env db body = (Except.ok (),
      { db := w1.saved.getD w1.db, saved := none, released := w1.released + 1,
        responses := w1.responses ++ [Response.failure 500 "Failed to create order"] }) := by
  simp only [run, postOrders, bind_apply, poolConnect, storageOp_ok _ _ _ _ _ hc, tryFinally,
    tryCatch, id, h, release, catchBlock, queryRollback, storageOp_ok _ _ _ _ _ hr, respond]

/-- A `try` block that throws, followed by a `ROLLBACK` that is rejected: the
`catch` block throws before it responds; the release still happens. -/
theorem run_of_error_rollback_fail (env : Env) (db : Db) (body : Body) (w1 : World) (e : Err)
    (hc : env.fails Op.connect = false) (hr : env.fails Op.rollback = true)
    (h : tryBlock env body (startWorld db) = (Except.error e, w1)) :
    run env db body = (Except.error (Err.storage Op.rollback),
      { w1 with released := w1.released + 1 }) := by
  simp only [run, postOrders, bind_apply, poolConnect, storageOp_ok _ _ _ _ _ hc, tryFinally,
    tryCatch, id, h, release, catchBlock, queryRollback, storageOp_fail _ _ _ _ _ hr]

/-- Where the handler does answer a failure: with the connection acquired and a
successful `ROLLBACK`, a failing `BEGIN`, upsert, order insert, item insert or
`COMMIT`, or a missing `items`, leads to the one response with status 500. -/
theorem postOrders_failure_response (env : Env) (db : Db) (body : Body)
    (hc : env.fails Op.connect = false) (hr : env.fails Op.rollback = false)
    (hfail : env.fails Op.begin = true ∨ env.fails Op.upsert = true ∨
      env.fails Op.insertOrder = true ∨ env.fails Op.commit = true ∨ body.items = none ∨
      ∃ items k, body.items = some items ∧ k < items.length ∧
        env.fails (Op.insertItem k) = true) :
    run env db body = (Except.ok (),
      { db := db, saved := none, released := 1,
        responses := [Response.failure 500 "Failed to create order"] }) := by
  rcases hres : tryBlock env body (startWorld db) with ⟨r, w1⟩
  cases r with
  | ok u =>
    exfalso
    obtain ⟨hb, hu, ho, hcm, items, hi, hall, _⟩ := tryBlock_ok env body _ w1 u hres
    rcases hfail with h | h | h | h | h | ⟨items2, k, hi2, hk, hf⟩
    · rw [hb] at h; exact Bool.noConfusion h
    · rw [hu] at h; exact Bool.noConfusion h
    · rw [ho] at h; exact Bool.noConfusion h
    · rw [hcm] at h; exact Bool.noConfusion h
    · rw [hi] at h; cases h
    · rw [hi] at hi2
      cases hi2
      rw [hall k hk] at hf; exact Bool.noConfusion hf
  | error e =>
    rw [run_of_error env db body w1 e hc hr hres]
    obtain ⟨hrel, hresp, hs | hs⟩ := tryBlock_error env body _ w1 e hres
    · simp [hs, hrel, hresp, startWorld]
    · simp [hs, startWorld]

/-! ## The claims on the handler -/

/-- C3. Atomicity: if the counter upsert, the order insert or the insert of some
submitted item fails, and the handler's `ROLLBACK` succeeds, the tables are
afterwards what they were before the request (no order row, no item row, the
counter at its old value) and no transaction is left open. -/
theorem postOrders_atomic (env : Env) (db : Db) (body : Body)
    (hr : env.fails Op.rollback = false)
    (hfail : env.fails Op.upsert = true ∨ env.fails Op.insertOrder = true ∨
      ∃ items k, body.items = some items ∧ k < items.length ∧
        env.fails (Op.insertItem k) = true) :
    (run env db body).2.db = db ∧ (run env db body).2.saved = none := by
  cases hc : env.fails Op.connect with
  | true => rw [run_connect_fail env db body hc]; exact ⟨rfl, rfl⟩
  | false =>
    rcases hres : tryBlock env body (startWorld db) with ⟨r, w1⟩
    cases r with
    | ok u =>
      exfalso
      obtain ⟨_, hu, ho, _, items, hi, hall, _⟩ := tryBlock_ok env body _ w1 u hres
      rcases hfail with h | h | ⟨items2, k, hi2, hk, hf⟩
      · rw [hu] at h; exact Bool.noConfusion h
      · rw [ho] at h; exact Bool.noConfusion h
      · rw [hi] at hi2
        cases hi2
        rw [hall k hk] at hf; exact Bool.noConfusion hf
    | error e =>
      rw [run_of_error env db body w1 e hc hr hres]
      obtain ⟨_, _, hs | hs⟩ := tryBlock_error env body _ w1 e hres
      · simp [hs, startWorld]
      · simp [hs, startWorld]

/-- C3, at a request with one item whose insert fails. -/
theorem postOrders_atomic_witness :
    (run (failingIn lateEvening 17 [Op.insertItem 0]) emptyDb teaBody).2.db = emptyDb ∧
    (run (failingIn lateEvening 17 [Op.insertItem 0]) emptyDb teaBody).2.saved = none :=
  postOrders_atomic (failingIn lateEvening 17 [Op.insertItem 0]) emptyDb teaBody (by decide)
    (Or.inr (Or.inr ⟨[tea], 0, rfl, by decide, by decide⟩))

/-- The run in which nothing fails and `items` is a list. -/
theorem run_no_failure (env : Env) (db : Db) (body : Body) (items : List Item)
    (hitems : body.items = some items) (hok : ∀ op, env.fails op = false) :
    run env db body = (Except.ok (),
      { db :=
          { bill_counters := (upsertCounter (today env.now) db.bill_counters).1,
            orders := db.orders ++ [orderRow env.orderId (billNo (today env.now)
              (storedCounter (today env.now) db.bill_counters + 1)) body],
            order_items := db.order_items ++ items.map (itemRow env.orderId) },
        saved := none,
        released := 1,
        responses := [Response.created (billNo (today env.now)
          (storedCounter (today env.now) db.bill_counters + 1)) env.orderId] }) := by
  obtain ⟨w1, hres⟩ := tryBlock_success env body items (startWorld db) hitems hok
  obtain ⟨_, _, _, _, items2, hi, _, hw⟩ := tryBlock_ok env body _ w1 () hres
  rw [hitems] at hi
  cases hi
  rw [run_of_ok env db body w1 () (hok _) hres, hw, ← upsertCounter_snd]
  rfl

/-- C4. Successful order creation: when no operation fails and `items` is a list
(in particular a non-empty one), the handler's promise is fulfilled and the
tables hold exactly one more order row, with the bill number formed from
today's date key and the freshly allocated counter (stored counter plus one)
and the payload's total unchanged, and one more item row per submitted item,
in input order, each with the new order's id and the item's name, qty, price
and total; the counter row is upserted, the transaction is closed, and the one
response is `created` with that bill number and that order id. On a day without
a counter row the bill number is the date digits followed by `-0001`. -/
theorem postOrders_success (env : Env) (db : Db) (body : Body) (items : List Item)
    (hitems : body.items = some items) (hok : ∀ op, env.fails op = false) :
    (run env db body).1 = Except.ok () ∧
    (run env db body).2.db.orders = db.orders ++
      [{ id := env.orderId,
         bill_no := billNo (today env.now) (storedCounter (today env.now) db.bill_counters + 1),
         customer_name := orNull body.customer_name,
         phone := orNull body.phone,
         session := orNull body.session,
         total := body.total }] ∧
    (run env db body).2.db.order_items = db.order_items ++
      items.map (fun it =>
        { order_id := env.orderId,
          item_id := orNull it.id,
          name_snapshot := it.name,
          qty := it.qty,
          unit_price := it.price,
          line_total := it.total }) ∧
    (run env db body).2.db.bill_counters = (upsertCounter (today env.now) db.bill_counters).1 ∧
    (run env db body).2.saved = none ∧
    (run env db body).2.responses =
      [Response.created
        (billNo (today env.now) (storedCounter (today env.now) db.bill_counters + 1))
        env.orderId] ∧
    (rowsOf (today env.now) db.bill_counters = [] →
      billNo (today env.now) (storedCounter (today env.now) db.bill_counters + 1) =
        String.mk (removeHyphens (today env.now).data ++ ['-', '0', '0', '0', '1'])) := by
  rw [run_no_failure env db body items hitems hok]
  refine ⟨rfl, rfl, rfl, rfl, rfl, rfl, ?_⟩
  intro hnone
  rw [storedCounter, lookupCounter_eq_none _ _ hnone]
  rfl

/-- C4, at the payload with one item Tea and total 20 on a day without a counter
row: one order row, one item row referring to it, and the bill number
`20240305-0001` in the response. -/
theorem postOrders_success_witness :
    (run (noFailure lateEvening 17) emptyDb teaBody).2.db.orders =
      [{ id := 17, bill_no := "20240305-0001", customer_name := JsVal.null,
         phone := JsVal.null, session := JsVal.null, total := JsVal.num 20 }] ∧
    (run (noFailure lateEvening 17) emptyDb teaBody).2.db.order_items =
      [{ order_id := 17, item_id := JsVal.null, name_snapshot := JsVal.str "Tea",
         qty := JsVal.num 2, unit_price := JsVal.num 10, line_total := JsVal.num 20 }] ∧
    (run (noFailure lateEvening 17) emptyDb teaBody).2.responses =
      [Response.created "20240305-0001" 17] :=
  have h := postOrders_success (noFailure lateEvening 17) emptyDb teaBody [tea] rfl
    (fun _ => rfl)
  ⟨h.2.1, h.2.2.1, h.2.2.2.2.2.1⟩

/-- C5 (amended). A payload without `items` is refused: if the connection was
acquired and the `ROLLBACK` succeeds, the tables are left as they were and the
one response is the failure with status 500. A payload whose `items` is the
empty list is accepted: when nothing fails, an order row is committed, no item
row is added, and the response is `created`. -/
theorem postOrders_without_items (env : Env) (db : Db) (body : Body) :
    (body.items = none → env.fails Op.connect = false → env.fails Op.rollback = false →
      (run env db body).2.db = db ∧
      (run env db body).2.responses = [Response.failure 500 "Failed to create order"]) ∧
    (body.items = some [] → (∀ op, env.fails op = false) →
      (run env db body).2.db.orders = db.orders ++
        [{ id := env.orderId,
           bill_no := billNo (today env.now) (storedCounter (today env.now) db.bill_counters + 1),
           customer_name := orNull body.customer_name,
           phone := orNull body.phone,
           session := orNull body.session,
           total := body.total }] ∧
      (run env db body).2.db.order_items = db.order_items ∧
      (run env db body).2.responses =
        [Response.created
          (billNo (today env.now) (storedCounter (today env.now) db.bill_counters + 1))
          env.orderId]) := by
  constructor
  · intro hnone hc hr
    rcases hres : tryBlock env body (startWorld db) with ⟨r, w1⟩
    cases r with
    | ok u =>
      obtain ⟨_, _, _, _, items, hi, _⟩ := tryBlock_ok env body _ w1 u hres
      rw [hnone] at hi
      cases hi
    | error e =>
      rw [run_of_error env db body w1 e hc hr hres]
      obtain ⟨_, hresp, hs | hs⟩ := tryBlock_error env body _ w1 e hres
      · simp [hs, hresp, startWorld]
      · simp [hs, startWorld]
  · intro hempty hok
    rw [run_no_failure env db body [] hempty hok]
    exact ⟨rfl, by simp, rfl⟩

/-- C5 (amended), at the payload without `items` and at the payload with
`items: []`, on a failure-free storage. -/
theorem postOrders_without_items_witness :
    ((run (noFailure lateEvening 17) emptyDb missingItemsBody).2.db = emptyDb ∧
      (run (noFailure lateEvening 17) emptyDb missingItemsBody).2.responses =
        [Response.failure 500 "Failed to create order"]) ∧
    (run (noFailure lateEvening 17) emptyDb emptyItemsBody).2.db.order_items = [] :=
  ⟨(postOrders_without_items (noFailure lateEvening 17) emptyDb missingItemsBody).1 rfl rfl rfl,
    ((postOrders_without_items (noFailure lateEvening 17) emptyDb emptyItemsBody).2 rfl
      (fun _ => rfl)).2.1⟩

/-- C5, refuted as stated: the payload with `items: []` is not answered with the
failure; the handler commits an order row that has no item row and answers
`created`. -/
theorem postOrders_empty_items_commits :
    (run (noFailure lateEvening 17) emptyDb emptyItemsBody).1 = Except.ok () ∧
    (run (noFailure lateEvening 17) emptyDb emptyItemsBody).2.responses =
      [Response.created "20240305-0001" 17] ∧
    (run (noFailure lateEvening 17) emptyDb emptyItemsBody).2.responses ≠
      [Response.failure 500 "Failed to create order"] ∧
    (run (noFailure lateEvening 17) emptyDb emptyItemsBody).2.db.orders =
      [{ id := 17, bill_no := "20240305-0001", customer_name := JsVal.null,
         phone := JsVal.null, session := JsVal.null, total := JsVal.num 0 }] ∧
    (run (noFailure lateEvening 17) emptyDb emptyItemsBody).2.db.order_items = [] ∧
    (run (noFailure lateEvening 17) emptyDb emptyItemsBody).2.saved = none ∧
    (∃ o ∈ (run (noFailure lateEvening 17) emptyDb emptyItemsBody).2.db.orders,
      ∀ i ∈ (run (noFailure lateEvening 17) emptyDb emptyItemsBody).2.db.order_items,
        i.order_id ≠ o.id) := by
  refine ⟨rfl, ?_, ?_, ?_, ?_, ?_, ?_⟩ <;> decide

/-- C6, the code at the failing inputs. When `pool.connect()` is rejected the
handler's promise is rejected and no response is sent. When the counter upsert
and then the `ROLLBACK` are rejected, the `catch` block throws before it
responds: again no response is sent (the connection is released). -/
theorem postOrders_failure_without_response :
    (run (failingIn lateEvening 17 [Op.connect]) emptyDb teaBody).1 =
      Except.error (Err.storage Op.connect) ∧
    (run (failingIn lateEvening 17 [Op.connect]) emptyDb teaBody).2.responses = [] ∧
    (run (failingIn lateEvening 17 [Op.upsert, Op.rollback]) emptyDb teaBody).1 =
      Except.error (Err.storage Op.rollback) ∧
    (run (failingIn lateEvening 17 [Op.upsert, Op.rollback]) emptyDb teaBody).2.responses = [] ∧
    (run (failingIn lateEvening 17 [Op.upsert, Op.rollback]) emptyDb teaBody).2.released = 1 := by
  refine ⟨rfl, ?_, rfl, ?_, ?_⟩ <;> decide

/-- C7. Whenever the connection was acquired, it is released exactly once by
the end of the handler: after a commit, after a failure that was rolled back,
and after a failure whose `ROLLBACK` failed as well. -/
theorem postOrders_releases_once (env : Env) (db : Db) (body : Body)
    (hc : env.fails Op.connect = false) : (run env db body).2.released = 1 := by
  rcases hres : tryBlock env body (startWorld db) with ⟨r, w1⟩
  cases r with
  | ok u =>
    obtain ⟨_, _, _, _, items, _, _, hw⟩ := tryBlock_ok env body _ w1 u hres
    rw [run_of_ok env db body w1 u hc hres, hw]
    rfl
  | error e =>
    obtain ⟨hrel, _, _⟩ := tryBlock_error env body _ w1 e hres
    cases hr : env.fails Op.rollback with
    | false => rw [run_of_error env db body w1 e hc hr hres]; simp [hrel, startWorld]
    | true =>
      rw [run_of_error_rollback_fail env db body w1 e hc hr hres]; simp [hrel, startWorld]

/-- C7, at a request whose order insert and `ROLLBACK` both fail. -/
theorem postOrders_releases_once_witness :
    (run (failingIn lateEvening 17 [Op.insertOrder, Op.rollback]) emptyDb teaBody).2.released = 1 :=
  postOrders_releases_once (failingIn lateEvening 17 [Op.insertOrder, Op.rollback]) emptyDb
    teaBody (by decide)

end Billing
